import Mathlib

/-!
# TransportRetry: a shallow embedding of `src/openapi/transport/retry.js`

The source file wraps an underlying HTTP transport and retries failed
calls after a timeout, up to a per-verb retry limit.  This development
embeds the retry engine as an executable state machine:

* `JsVal` models the JavaScript values the retry logic inspects
  (truthiness of the failure descriptor and of its `status` field);
* `RetryState` models the fields of a `TransportRetry` instance together
  with the bits of environment state the logic depends on (which
  transport calls are awaiting a response, whether the armed `setTimeout`
  callback is still pending);
* each prototype method of the source becomes a function
  `RetryState → ... → RetryState × List Event`, where `Event` is the
  observable trace (underlying-transport invocations, promise
  resolutions/rejections, timer arming and clearing, disposal);
* `step`/`run` drive the machine with environment actions: a caller
  invoking a verb, the transport delivering a response to the oldest
  in-flight call, the armed timer firing.

Promise handlers in the source run asynchronously, so a response is
delivered (and its handler runs) only as its own `step`, never in the
middle of another synchronous section; the `while` loop of
`retryFailedCalls` is therefore a plain drain of the queue snapshot.
-/

/-- JavaScript values as far as the retry logic observes them: the failure
descriptor may be `null`/`undefined`, a primitive, or an object that may or
may not have a `status` field.  `callRecord` stands for the internal
`transportCall` object of the source when it escapes to the caller (it is
what `transportCall.reject.apply(null, arguments)` passes, since
`arguments` inside the arrow handler is `sendTransportCall`'s arguments
object, namely the one-element list holding the `transportCall` record). -/
inductive JsVal where
  | undef
  | jsNull
  | num (n : Int)
  | str (s : String)
  | boolValue (b : Bool)
  | errObjNoStatus
  | errObjWithStatus (status : JsVal)
  | callRecord (method : String) (retryCount : Nat)
deriving DecidableEq

/-- JavaScript truthiness for `JsVal` (objects are always truthy). -/
def JsVal.truthy : JsVal → Bool
  | JsVal.undef => false
  | JsVal.jsNull => false
  | JsVal.num n => decide (n ≠ 0)
  | JsVal.str s => decide (s ≠ "")
  | JsVal.boolValue b => b
  | JsVal.errObjNoStatus => true
  | JsVal.errObjWithStatus _ => true
  | JsVal.callRecord _ _ => true

/-- Property access `v.status`: `undefined` unless the object carries the
field.  (In `sendTransportCall` the access is short-circuit guarded by
`response &&`, so it is never evaluated on `null`/`undefined`.) -/
def getStatus : JsVal → JsVal
  | JsVal.errObjWithStatus v => v
  | _ => JsVal.undef

/-- The `transportCall` record built in `transportMethod` (retry.js lines
17-23).  `callId` identifies the promise whose `resolve`/`reject`
continuations the record holds; `args` is the caller's argument list,
opaque to the retry logic. -/
structure PendingCall where
  method : String
  args : List JsVal
  callId : Nat
  retryCount : Nat
deriving DecidableEq

/-- A JavaScript exception surfaced by the embedded code. -/
inductive JsError where
  | typeError (message : String)
  | errorMsg (message : String)
deriving DecidableEq

/-- The observable trace of the retry transport:
invocations of the underlying transport (tagged with the managed call's id,
or `none` for an unmanaged passthrough), promise settlements, timer arming
and clearing, and delegation of disposal. -/
inductive Event where
  | transportInvoke (callId : Option Nat) (method : String) (args : List JsVal)
  | resolveCall (callId : Nat) (v : JsVal)
  | rejectCall (callId : Nat) (v : JsVal)
  | timerStart (id : Nat) (timeout : Int)
  | timerClear (id : Nat)
  | transportDispose
deriving DecidableEq

/-- The fields of a `TransportRetry` instance (retry.js lines 52-56)
together with the environment state the semantics needs:

* `retryTimer` is the instance field holding the `setTimeout` handle
  (`none` models `null`);
* `pendingTimer` is the environment's view: the handle of the armed,
  not-yet-fired, not-yet-cancelled timeout, if any;
* `inflight` lists the managed calls whose underlying-transport promise
  has not settled yet, oldest first;
* `nextTimerId` / `nextCallId` supply fresh identities. -/
structure RetryState where
  retryTimeout : Int
  methods : List (String × Int)
  failedCalls : List PendingCall
  retryTimer : Option Nat
  pendingTimer : Option Nat
  inflight : List PendingCall
  nextTimerId : Nat
  nextCallId : Nat
deriving DecidableEq

/-- Options object of the constructor: `retryTimeout` and `methods` may
each be absent.  A method policy `{retryLimit: L}` is modelled by its
retry limit `L`. -/
structure RetryOptions where
  retryTimeout : Option Int
  methods : Option (List (String × Int))
deriving DecidableEq

/-- The constructor (retry.js lines 48-57).  `transport` is opaque; `none`
models a missing/falsy argument, which throws synchronously.
`this.retryTimeout = (options && options.retryTimeout > 0) ? options.retryTimeout : 0`
and `this.methods = (options && options.methods) ? options.methods : {}`.  -/
def TransportRetry (transport : Option Unit) (options : Option RetryOptions) :
    Except JsError RetryState :=
  match transport with
  | none => Except.error (JsError.errorMsg "Missing required parameter: transport in TransportRetry")
  | some _ =>
      let retryTimeout : Int :=
        match options with
        | some o =>
            match o.retryTimeout with
            | some t => if 0 < t then t else 0
            | none => 0
        | none => 0
      let methods : List (String × Int) :=
        match options with
        | some o =>
            match o.methods with
            | some ms => ms
            | none => []
        | none => []
      Except.ok
        { retryTimeout := retryTimeout
          methods := methods
          failedCalls := []
          retryTimer := none
          pendingTimer := none
          inflight := []
          nextTimerId := 0
          nextCallId := 0 }

/-- The check of retry.js line 13:
`this.methods[method] && this.methods[method].retryLimit > 0`. -/
def isManaged (s : RetryState) (method : String) : Bool :=
  match s.methods.lookup method with
  | some retryLimit => decide (0 < retryLimit)
  | none => false

/-- `this.methods[transportCall.method].retryLimit` (retry.js line 119).
The source only evaluates this for managed calls, for which the lookup
succeeds; the default is never reached from the operations below. -/
def retryLimitOf (s : RetryState) (method : String) : Int :=
  (s.methods.lookup method).getD 0

/-- `sendTransportCall` (retry.js lines 112-126): invoke the underlying
transport for the call and leave the call awaiting its response (the
`then` handlers run later, when the response is delivered). -/
def sendTransportCall (s : RetryState) (tc : PendingCall) : RetryState × List Event :=
  ({ s with inflight := s.inflight ++ [tc] },
   [Event.transportInvoke (some tc.callId) tc.method tc.args])

/-- `addFailedCall` (retry.js lines 132-140): increment `retryCount`, push
the call on `failedCalls`, and arm a timer for `retryTimeout` unless one
handle is already stored in `retryTimer`. -/
def addFailedCall (s : RetryState) (tc : PendingCall) : RetryState × List Event :=
  let tc2 : PendingCall := { tc with retryCount := tc.retryCount + 1 }
  let s2 : RetryState := { s with failedCalls := s.failedCalls ++ [tc2] }
  match s2.retryTimer with
  | some _ => (s2, [])
  | none =>
      let id := s2.nextTimerId
      ({ s2 with retryTimer := some id, pendingTimer := some id, nextTimerId := id + 1 },
       [Event.timerStart id s2.retryTimeout])

/-- The rejection handler installed by `sendTransportCall` (retry.js lines
117-125).  If the response lacks a truthy `status` and the retry budget is
not exhausted the call is queued; otherwise the source runs
`transportCall.reject.apply(null, arguments)`, and since the handler is an
arrow function, `arguments` is the enclosing `sendTransportCall`'s
arguments object `[transportCall]`: the promise is rejected with the
`transportCall` record itself, not with `response`. -/
def onTransportFailure (s : RetryState) (tc : PendingCall) (response : JsVal) :
    RetryState × List Event :=
  if !(response.truthy && (getStatus response).truthy)
      && decide ((tc.retryCount : Int) < retryLimitOf s tc.method) then
    addFailedCall s tc
  else
    (s, [Event.rejectCall tc.callId (JsVal.callRecord tc.method tc.retryCount)])

/-- The `while` loop of `retryFailedCalls` (retry.js lines 147-149):
`shift` the queue and `sendTransportCall` each element in order.
`sendTransportCall` never touches `failedCalls` synchronously, so the
loop drains exactly the snapshot of the queue. -/
def drainCalls (s : RetryState) : List PendingCall → RetryState × List Event
  | [] => (s, [])
  | tc :: rest =>
      let p1 := sendTransportCall s tc
      let p2 := drainCalls p1.1 rest
      (p2.1, p1.2 ++ p2.2)

/-- `retryFailedCalls` (retry.js lines 145-150): null the `retryTimer`
field first, then drain the queue. -/
def retryFailedCalls (s : RetryState) : RetryState × List Event :=
  drainCalls { s with retryTimer := none, failedCalls := [] } s.failedCalls

/-- What a verb method returns to the caller. -/
inductive CallResult where
  | passthrough
  | deferred (callId : Nat)
deriving DecidableEq

/-- The shared verb method body built by `transportMethod` (retry.js lines
10-32): for a managed verb, build a `transportCall` with `retryCount = 0`,
hand the caller a fresh deferred result and submit the call; otherwise
forward to the underlying transport and return its result unmodified. -/
def transportMethod (s : RetryState) (method : String) (args : List JsVal) :
    RetryState × List Event × CallResult :=
  if isManaged s method then
    let tc : PendingCall :=
      { method := method, args := args, callId := s.nextCallId, retryCount := 0 }
    let p := sendTransportCall { s with nextCallId := s.nextCallId + 1 } tc
    (p.1, p.2, CallResult.deferred tc.callId)
  else
    (s, [Event.transportInvoke none method args], CallResult.passthrough)

/-- `dispose` (retry.js lines 155-161).  `this.failedCalls.length = 0`
empties the queue; then, if `retryTimer` holds a handle, the source
evaluates `this.retryTimer.clear()`.  Platform model: `setTimeout` returns
a plain timeout handle (a number per the HTML timers specification, a
`Timeout` object in Node.js) and neither has a `clear` method — the call
throws a `TypeError`, so `this.transport.dispose()` is not reached.  With
no stored handle, disposal is delegated to the underlying transport.
`retryTimer` is never reset to `null` on this path. -/
def dispose (s : RetryState) : RetryState × List Event × Option JsError :=
  let s2 : RetryState := { s with failedCalls := [] }
  match s2.retryTimer with
  | some _ =>
      (s2, [], some (JsError.typeError "this.retryTimer.clear is not a function"))
  | none => (s2, [Event.transportDispose], none)

/-- What the environment tells the oldest in-flight transport call. -/
inductive TransportOutcome where
  | success (v : JsVal)
  | failure (d : JsVal)
deriving DecidableEq

/-- An environment action: a caller invokes a verb, the underlying
transport settles the oldest in-flight call, or the armed timer fires. -/
inductive EnvAction where
  | call (method : String) (args : List JsVal)
  | deliver (o : TransportOutcome)
  | fire
deriving DecidableEq

/-- One environment action.  Delivery pops the oldest in-flight call and
runs the corresponding `then` handler; `fire` runs `retryFailedCalls` when
the armed timeout is still pending (a cancelled or absent timer never
fires) and un-arms it. -/
def step (s : RetryState) (a : EnvAction) : RetryState × List Event :=
  match a with
  | EnvAction.call m args =>
      let p := transportMethod s m args
      (p.1, p.2.1)
  | EnvAction.deliver o =>
      match s.inflight with
      | [] => (s, [])
      | tc :: rest =>
          let s2 : RetryState := { s with inflight := rest }
          match o with
          | TransportOutcome.success v => (s2, [Event.resolveCall tc.callId v])
          | TransportOutcome.failure d => onTransportFailure s2 tc d
  | EnvAction.fire =>
      match s.pendingTimer with
      | none => (s, [])
      | some _ => retryFailedCalls { s with pendingTimer := none }

/-- Run a sequence of environment actions, collecting the trace. -/
def run (s : RetryState) : List EnvAction → RetryState × List Event
  | [] => (s, [])
  | a :: rest =>
      let p1 := step s a
      let p2 := run p1.1 rest
      (p2.1, p1.2 ++ p2.2)

/-- Matches an underlying-transport invocation made on behalf of call `cid`. -/
def isInvokeFor (cid : Nat) : Event → Bool
  | Event.transportInvoke (some c) _ _ => c == cid
  | _ => false

/-- Matches a resolution of call `cid`'s promise. -/
def isResolveFor (cid : Nat) : Event → Bool
  | Event.resolveCall c _ => c == cid
  | _ => false

/-- Matches a rejection of call `cid`'s promise. -/
def isRejectFor (cid : Nat) : Event → Bool
  | Event.rejectCall c _ => c == cid
  | _ => false

/-- Number of underlying-transport invocations for call `cid` in a trace. -/
def countInvoke (cid : Nat) (evs : List Event) : Nat := evs.countP (isInvokeFor cid)

/-- Number of resolutions of call `cid` in a trace. -/
def countResolve (cid : Nat) (evs : List Event) : Nat := evs.countP (isResolveFor cid)

/-- Number of rejections of call `cid` in a trace. -/
def countReject (cid : Nat) (evs : List Event) : Nat := evs.countP (isRejectFor cid)

/-- The trace touches call `cid` in no way: no redispatch, no settlement. -/
def NoEventsFor (cid : Nat) (evs : List Event) : Prop :=
  countInvoke cid evs = 0 ∧ countResolve cid evs = 0 ∧ countReject cid evs = 0

/-- A freshly constructed `TransportRetry` state (what the constructor
produces once `retryTimeout` and `methods` have been resolved). -/
def initState (timeout : Int) (ms : List (String × Int)) : RetryState :=
  { retryTimeout := timeout, methods := ms, failedCalls := [], retryTimer := none,
    pendingTimer := none, inflight := [], nextTimerId := 0, nextCallId := 0 }

/-- A managed `get` with retry limit 1 whose first attempt fails with an
HTTP 500 response: the failure path that finalizes the call. -/
def scenarioHttpFailure : RetryState × List Event :=
  run (initState 0 [("get", 1)])
    [EnvAction.call "get" [],
     EnvAction.deliver (TransportOutcome.failure (JsVal.errObjWithStatus (JsVal.num 500)))]

/-- A managed `get` with retry limit 2 whose first attempt fails at the
transport level: the call is queued and the retry timer is armed, so
`retryTimer` holds a live `setTimeout` handle. -/
def scenarioArmedTimer : RetryState :=
  (run (initState 10 [("get", 2)])
    [EnvAction.call "get" [], EnvAction.deliver (TransportOutcome.failure JsVal.jsNull)]).1

/-- The promise identities of every call the instance still tracks
(awaiting a response or queued for resend). -/
def callIds (s : RetryState) : List Nat :=
  (s.inflight ++ s.failedCalls).map PendingCall.callId

/-- Every tracked call's identity was issued by the instance: fresh ids
cannot collide with it. -/
def IdsBelow (s : RetryState) : Prop :=
  ∀ c ∈ callIds s, c < s.nextCallId

/-- Every tracked call's retry count is within its verb's retry limit. -/
def RetryBound (s : RetryState) : Prop :=
  ∀ tc ∈ s.inflight ++ s.failedCalls, (tc.retryCount : Int) ≤ retryLimitOf s tc.method

/-- `k` rounds of: the transport fails the oldest in-flight call, then the
armed retry timer fires. -/
def failFireRounds (d : JsVal) : Nat → List EnvAction
  | 0 => []
  | k + 1 =>
      EnvAction.deliver (TransportOutcome.failure d) :: EnvAction.fire :: failFireRounds d k

/-- The state between rounds of the retry-exhaustion scenario: the single
managed call (id 0) is in flight with `c` retries burnt, the queue is
empty and no timer is armed. -/
def midState (timeout : Int) (m : String) (limit : Int) (args : List JsVal)
    (c tid : Nat) : RetryState :=
  { retryTimeout := timeout, methods := [(m, limit)], failedCalls := [],
    retryTimer := none, pendingTimer := none,
    inflight := [{ method := m, args := args, callId := 0, retryCount := c }],
    nextTimerId := tid, nextCallId := 1 }

/-- The trace of `k` failure-then-fire rounds for call 0: each round arms a
timer and redispatches the call once. -/
def roundEvents (timeout : Int) (m : String) (args : List JsVal) : Nat → Nat → List Event
  | _, 0 => []
  | tid, k + 1 =>
      Event.timerStart tid timeout :: Event.transportInvoke (some 0) m args
        :: roundEvents timeout m args (tid + 1) k

/-- The retry-exhaustion scenario: one managed call, then `n` rounds of
transport-level failure followed by a timer firing, then one final
transport-level failure. -/
def scenarioRetryExhaust (timeout : Int) (m : String) (limit : Int) (args : List JsVal)
    (d : JsVal) (n : Nat) : RetryState × List Event :=
  run (initState timeout [(m, limit)])
    (EnvAction.call m args
      :: (failFireRounds d n ++ [EnvAction.deliver (TransportOutcome.failure d)]))

/-- C8: construction throws exactly when the transport argument is
missing; otherwise the retry timeout resolves to the supplied value when
positive and to 0 when unset or non-positive, the method policies resolve
to the supplied mapping or to the empty one, and the state starts with an
empty retry queue, no timer and nothing in flight. -/
theorem c8_construction_contract (o : Option RetryOptions) :
    TransportRetry none o
      = Except.error (JsError.errorMsg "Missing required parameter: transport in TransportRetry")
    ∧ TransportRetry (some ()) o =
        Except.ok
          { retryTimeout :=
              match o.bind RetryOptions.retryTimeout with
              | some t => if 0 < t then t else 0
              | none => 0
            methods := (o.bind RetryOptions.methods).getD []
            failedCalls := []
            retryTimer := none
            pendingTimer := none
            inflight := []
            nextTimerId := 0
            nextCallId := 0 } := by
  refine ⟨rfl, ?_⟩
  rcases o with _ | ⟨rt, ms⟩
  · rfl
  · rcases rt with _ | t <;> rcases ms with _ | m <;> simp [TransportRetry, Option.bind]

/-- C3: a verb absent from the method policies, or present with a
non-positive retry limit, is forwarded to the underlying transport exactly
once with the caller's arguments, its result is returned unmodified, and
the state (retry queue, timer) is untouched. -/
theorem c3_unmanaged_passthrough (s : RetryState) (m : String) (args : List JsVal)
    (h : s.methods.lookup m = none ∨ ∃ L, s.methods.lookup m = some L ∧ L ≤ 0) :
    transportMethod s m args
      = (s, [Event.transportInvoke none m args], CallResult.passthrough) := by
  have hm : isManaged s m = false := by
    unfold isManaged
    rcases h with h | ⟨L, hL, hle⟩
    · rw [h]
    · rw [hL]
      simpa using hle
  unfold transportMethod
  simp [hm]

/-- Witness for C3 at a concrete unmanaged verb. -/
theorem c3_unmanaged_passthrough_witness :
    transportMethod (initState 0 [("post", 0)]) "get" [JsVal.str "url"]
      = (initState 0 [("post", 0)],
         [Event.transportInvoke none "get" [JsVal.str "url"]],
         CallResult.passthrough) :=
  c3_unmanaged_passthrough (initState 0 [("post", 0)]) "get" [JsVal.str "url"]
    (Or.inl (by decide))

/-- C4: a failure whose descriptor carries a truthy HTTP status rejects the
managed call immediately — the handler neither queues the call nor touches
the state, regardless of remaining retry budget — and in a full run the
underlying transport is invoked exactly once for that call. -/
theorem c4_http_status_rejected_immediately (s : RetryState) (tc : PendingCall) (d : JsVal)
    (hd : d.truthy = true) (hs : (getStatus d).truthy = true) :
    onTransportFailure s tc d
      = (s, [Event.rejectCall tc.callId (JsVal.callRecord tc.method tc.retryCount)])
    ∧ countInvoke tc.callId (onTransportFailure s tc d).2 = 0
    ∧ ∀ limit : Int, ∀ args : List JsVal, 0 < limit →
        (run (initState 0 [("get", limit)])
            [EnvAction.call "get" args, EnvAction.deliver (TransportOutcome.failure d)]).2
          = [Event.transportInvoke (some 0) "get" args,
             Event.rejectCall 0 (JsVal.callRecord "get" 0)] := by
  have hcond : (d.truthy && (getStatus d).truthy) = true := by rw [hd, hs]; rfl
  have h1 : onTransportFailure s tc d
      = (s, [Event.rejectCall tc.callId (JsVal.callRecord tc.method tc.retryCount)]) := by
    unfold onTransportFailure
    rw [hcond]
    rfl
  refine ⟨h1, by rw [h1]; rfl, ?_⟩
  intro limit args hlim
  simp [run, step, transportMethod, isManaged, List.lookup, hlim, sendTransportCall,
    onTransportFailure, initState, hcond]

/-- Witness for C4 with a 500-status failure and full budget. -/
theorem c4_http_status_rejected_immediately_witness :
    onTransportFailure (initState 0 [("get", 3)])
        { method := "get", args := [], callId := 0, retryCount := 0 }
        (JsVal.errObjWithStatus (JsVal.num 500))
      = (initState 0 [("get", 3)], [Event.rejectCall 0 (JsVal.callRecord "get" 0)]) :=
  (c4_http_status_rejected_immediately (initState 0 [("get", 3)])
      { method := "get", args := [], callId := 0, retryCount := 0 }
      (JsVal.errObjWithStatus (JsVal.num 500)) (by decide) (by decide)).1

/-- C10: classification tests truthiness, not presence, of `status`: a
descriptor that is `null`/`undefined`, or whose `status` field is present
but falsy, is retried when budget remains — the call is enqueued with its
retry count incremented and no rejection is emitted. -/
theorem c10_truthiness_not_presence (s : RetryState) (tc : PendingCall) (d : JsVal)
    (hbudget : (tc.retryCount : Int) < retryLimitOf s tc.method)
    (hd : d = JsVal.jsNull ∨ d = JsVal.undef
        ∨ ∃ v, d = JsVal.errObjWithStatus v ∧ v.truthy = false) :
    onTransportFailure s tc d = addFailedCall s tc
    ∧ (onTransportFailure s tc d).1.failedCalls
        = s.failedCalls ++ [{ tc with retryCount := tc.retryCount + 1 }]
    ∧ countReject tc.callId (onTransportFailure s tc d).2 = 0 := by
  have hcond : (d.truthy && (getStatus d).truthy) = false := by
    rcases hd with rfl | rfl | ⟨v, rfl, hv⟩
    · rfl
    · rfl
    · rw [show getStatus (JsVal.errObjWithStatus v) = v from rfl, hv]
      rfl
  have h1 : onTransportFailure s tc d = addFailedCall s tc := by
    unfold onTransportFailure
    rw [hcond]
    simp [hbudget]
  have h2 : (addFailedCall s tc).1.failedCalls
      = s.failedCalls ++ [{ tc with retryCount := tc.retryCount + 1 }] := by
    rcases h : s.retryTimer with _ | tid <;> simp [addFailedCall, h]
  have h3 : countReject tc.callId (addFailedCall s tc).2 = 0 := by
    rcases h : s.retryTimer with _ | tid <;>
      simp [addFailedCall, h, countReject, isRejectFor]
  exact ⟨h1, by rw [h1]; exact h2, by rw [h1]; exact h3⟩

/-- Witness for C10 with a present-but-zero status code. -/
theorem c10_truthiness_not_presence_witness :
    onTransportFailure (initState 0 [("get", 1)])
        { method := "get", args := [], callId := 0, retryCount := 0 }
        (JsVal.errObjWithStatus (JsVal.num 0))
      = addFailedCall (initState 0 [("get", 1)])
          { method := "get", args := [], callId := 0, retryCount := 0 } :=
  (c10_truthiness_not_presence (initState 0 [("get", 1)])
      { method := "get", args := [], callId := 0, retryCount := 0 }
      (JsVal.errObjWithStatus (JsVal.num 0)) (by decide)
      (Or.inr (Or.inr ⟨JsVal.num 0, rfl, rfl⟩))).1

/-- C2 (refuted, code bug): when a managed call is finalized as a failure,
the rejecter does not receive the transport's failure descriptor: the
source runs `transportCall.reject.apply(null, arguments)` inside an arrow
handler, where `arguments` is `sendTransportCall`'s arguments object, so
the promise is rejected with the internal `transportCall` record instead
of the descriptor the underlying transport rejected with. -/
theorem c2_reject_receives_call_record_not_descriptor :
    scenarioHttpFailure.2
      = [Event.transportInvoke (some 0) "get" [],
         Event.rejectCall 0 (JsVal.callRecord "get" 0)]
    ∧ JsVal.callRecord "get" 0 ≠ JsVal.errObjWithStatus (JsVal.num 500) := by
  decide

/-- C5 (refuted, code bug): disposing while the retry timer is armed
evaluates `this.retryTimer.clear()` on a `setTimeout` handle, which has no
`clear` method, so `dispose` throws a `TypeError` and never reaches
`this.transport.dispose()` (the queue has already been emptied). -/
theorem c5_dispose_with_armed_timer_raises :
    scenarioArmedTimer.retryTimer = some 0
    ∧ (dispose scenarioArmedTimer).2.2
        = some (JsError.typeError "this.retryTimer.clear is not a function")
    ∧ Event.transportDispose ∉ (dispose scenarioArmedTimer).2.1
    ∧ (dispose scenarioArmedTimer).1.failedCalls = [] := by
  decide

/-- Draining sends each queued call in order: the queue elements move to
the back of the in-flight list and one invocation is emitted per element,
in FIFO order. -/
theorem drainCalls_spec (l : List PendingCall) (s : RetryState) :
    drainCalls s l
      = ({ s with inflight := s.inflight ++ l },
         l.map fun tc => Event.transportInvoke (some tc.callId) tc.method tc.args) := by
  induction l generalizing s with
  | nil => simp [drainCalls]
  | cons tc rest ih => simp [drainCalls, sendTransportCall, ih]

/-- `retryFailedCalls` clears the timer field, empties the queue and
redispatches every queued call in FIFO order. -/
theorem retryFailedCalls_spec (s : RetryState) :
    retryFailedCalls s
      = ({ s with
            retryTimer := none
            failedCalls := []
            inflight := s.inflight ++ s.failedCalls },
         s.failedCalls.map fun tc => Event.transportInvoke (some tc.callId) tc.method tc.args) := by
  simp [retryFailedCalls, drainCalls_spec]

/-- A drain emits no invocation for a call id outside the drained queue. -/
theorem countInvoke_map_invoke (cid : Nat) (l : List PendingCall)
    (h : ∀ tc ∈ l, tc.callId ≠ cid) :
    countInvoke cid
      (l.map fun tc => Event.transportInvoke (some tc.callId) tc.method tc.args) = 0 := by
  unfold countInvoke
  rw [List.countP_eq_zero]
  intro e he
  rcases List.mem_map.mp he with ⟨tc, htc, rfl⟩
  simpa [isInvokeFor] using h tc htc

/-- A drain emits no resolution at all. -/
theorem countResolve_map_invoke (cid : Nat) (l : List PendingCall) :
    countResolve cid
      (l.map fun tc => Event.transportInvoke (some tc.callId) tc.method tc.args) = 0 := by
  unfold countResolve
  rw [List.countP_eq_zero]
  intro e he
  rcases List.mem_map.mp he with ⟨tc, htc, rfl⟩
  simp [isResolveFor]

/-- A drain emits no rejection at all. -/
theorem countReject_map_invoke (cid : Nat) (l : List PendingCall) :
    countReject cid
      (l.map fun tc => Event.transportInvoke (some tc.callId) tc.method tc.args) = 0 := by
  unfold countReject
  rw [List.countP_eq_zero]
  intro e he
  rcases List.mem_map.mp he with ⟨tc, htc, rfl⟩
  simp [isRejectFor]

/-- Running a concatenation of action lists runs them in sequence and
concatenates the traces. -/
theorem run_append (s : RetryState) (l1 l2 : List EnvAction) :
    run s (l1 ++ l2)
      = ((run (run s l1).1 l2).1, (run s l1).2 ++ (run (run s l1).1 l2).2) := by
  induction l1 generalizing s with
  | nil => simp [run]
  | cons a rest ih => simp [run, ih]

/-- C6: while a timer is armed, a further failed call is appended to the
queue without starting another timer (the single armed timer is shared);
when that timer fires, the whole queue is drained in one batch, each call
redispatched in FIFO enqueue order; the timer field is cleared before the
drain, so a call that fails again afterwards arms a fresh timer. -/
theorem c6_shared_timer_fifo_batch (s : RetryState) (tc tc2 : PendingCall) (tid : Nat)
    (hTimer : s.retryTimer = some tid) (hPend : s.pendingTimer = some tid) :
    addFailedCall s tc
      = ({ s with failedCalls := s.failedCalls ++ [{ tc with retryCount := tc.retryCount + 1 }] },
         [])
    ∧ step s EnvAction.fire
      = ({ s with
            retryTimer := none
            pendingTimer := none
            failedCalls := []
            inflight := s.inflight ++ s.failedCalls },
         s.failedCalls.map fun c => Event.transportInvoke (some c.callId) c.method c.args)
    ∧ (step s EnvAction.fire).1.retryTimer = none
    ∧ (addFailedCall (step s EnvAction.fire).1 tc2).2
        = [Event.timerStart (step s EnvAction.fire).1.nextTimerId s.retryTimeout]
    ∧ (addFailedCall (step s EnvAction.fire).1 tc2).1.retryTimer
        = some (step s EnvAction.fire).1.nextTimerId := by
  have hAdd : addFailedCall s tc
      = ({ s with failedCalls := s.failedCalls ++ [{ tc with retryCount := tc.retryCount + 1 }] },
         []) := by
    simp [addFailedCall, hTimer]
  have hFire : step s EnvAction.fire
      = ({ s with
            retryTimer := none
            pendingTimer := none
            failedCalls := []
            inflight := s.inflight ++ s.failedCalls },
         s.failedCalls.map fun c => Event.transportInvoke (some c.callId) c.method c.args) := by
    simp [step, hPend, retryFailedCalls_spec]
  refine ⟨hAdd, hFire, ?_, ?_, ?_⟩ <;> rw [hFire] <;> simp [addFailedCall]

/-- Witness for C6: two calls queued behind one armed timer are both
redispatched, in enqueue order, by a single firing. -/
theorem c6_shared_timer_fifo_batch_witness :
    step
      { retryTimeout := 7, methods := [("get", 2)],
        failedCalls :=
          [{ method := "get", args := [], callId := 0, retryCount := 1 },
           { method := "put", args := [JsVal.num 4], callId := 1, retryCount := 1 }],
        retryTimer := some 0, pendingTimer := some 0, inflight := [],
        nextTimerId := 1, nextCallId := 2 }
      EnvAction.fire
      = ({ retryTimeout := 7, methods := [("get", 2)],
           failedCalls := [], retryTimer := none, pendingTimer := none,
           inflight :=
             [{ method := "get", args := [], callId := 0, retryCount := 1 },
              { method := "put", args := [JsVal.num 4], callId := 1, retryCount := 1 }],
           nextTimerId := 1, nextCallId := 2 },
         [Event.transportInvoke (some 0) "get" [],
          Event.transportInvoke (some 1) "put" [JsVal.num 4]]) :=
  (c6_shared_timer_fifo_batch
    { retryTimeout := 7, methods := [("get", 2)],
      failedCalls :=
        [{ method := "get", args := [], callId := 0, retryCount := 1 },
         { method := "put", args := [JsVal.num 4], callId := 1, retryCount := 1 }],
      retryTimer := some 0, pendingTimer := some 0, inflight := [],
      nextTimerId := 1, nextCallId := 2 }
    { method := "get", args := [], callId := 0, retryCount := 1 }
    { method := "get", args := [], callId := 0, retryCount := 1 }
    0 rfl rfl).2.1

/-- Membership in `callIds`, unfolded to the two tracking lists. -/
theorem notMem_callIds (s : RetryState) (cid : Nat) :
    cid ∉ callIds s ↔ ∀ tc ∈ s.inflight ++ s.failedCalls, tc.callId ≠ cid := by
  constructor
  · intro h tc htc heq
    exact h (List.mem_map.mpr ⟨tc, htc, heq⟩)
  · intro h hc
    rcases List.mem_map.mp hc with ⟨tc, htc, heq⟩
    exact h tc htc heq

/-- `IdsBelow`, unfolded to the two tracking lists. -/
theorem idsBelow_iff (s : RetryState) :
    IdsBelow s ↔ ∀ tc ∈ s.inflight ++ s.failedCalls, tc.callId < s.nextCallId := by
  constructor
  · intro h tc htc
    exact h tc.callId (List.mem_map.mpr ⟨tc, htc, rfl⟩)
  · intro h c hc
    rcases List.mem_map.mp hc with ⟨tc, htc, rfl⟩
    exact h tc htc

/-- The state fields `addFailedCall` leaves alone or updates, in both
timer branches. -/
theorem addFailedCall_state (s : RetryState) (tc : PendingCall) :
    (addFailedCall s tc).1.inflight = s.inflight
    ∧ (addFailedCall s tc).1.failedCalls
        = s.failedCalls ++ [{ tc with retryCount := tc.retryCount + 1 }]
    ∧ (addFailedCall s tc).1.nextCallId = s.nextCallId
    ∧ (addFailedCall s tc).1.methods = s.methods := by
  rcases h : s.retryTimer with _ | tid <;> simp [addFailedCall, h]

/-- `addFailedCall` emits no invocation, resolution or rejection (at most
a timer-start). -/
theorem addFailedCall_events (s : RetryState) (tc : PendingCall) (cid : Nat) :
    NoEventsFor cid (addFailedCall s tc).2 := by
  rcases h : s.retryTimer with _ | tid <;>
    simp [addFailedCall, h, NoEventsFor, countInvoke, countResolve, countReject,
      isInvokeFor, isResolveFor, isRejectFor]

/-- The rejection handler either queues the call or rejects the promise
with the `transportCall` record. -/
theorem onTransportFailure_cases (s : RetryState) (tc : PendingCall) (d : JsVal) :
    onTransportFailure s tc d = addFailedCall s tc
    ∨ onTransportFailure s tc d
        = (s, [Event.rejectCall tc.callId (JsVal.callRecord tc.method tc.retryCount)]) := by
  unfold onTransportFailure
  split
  · exact Or.inl rfl
  · exact Or.inr rfl

/-- Frame property of one step: an id the instance does not track (and
cannot re-issue) gets no invocation, resolution or rejection, and stays
untracked. -/
theorem step_frame (s : RetryState) (a : EnvAction) (cid : Nat)
    (h1 : cid ∉ callIds s) (h2 : IdsBelow s) (h3 : cid < s.nextCallId) :
    NoEventsFor cid (step s a).2 ∧ cid ∉ callIds (step s a).1
    ∧ IdsBelow (step s a).1 ∧ cid < (step s a).1.nextCallId := by
  have h1' := (notMem_callIds s cid).mp h1
  have h2' := (idsBelow_iff s).mp h2
  cases a with
  | call m args =>
      cases hman : isManaged s m with
      | false =>
          have hstep : step s (EnvAction.call m args)
              = (s, [Event.transportInvoke none m args]) := by
            simp [step, transportMethod, hman]
          rw [hstep]
          exact ⟨by simp [NoEventsFor, countInvoke, countResolve, countReject,
            isInvokeFor, isResolveFor, isRejectFor], h1, h2, h3⟩
      | true =>
          have hstep : step s (EnvAction.call m args)
              = ({ s with
                    nextCallId := s.nextCallId + 1
                    inflight := s.inflight
                      ++ [{ method := m, args := args, callId := s.nextCallId,
                            retryCount := 0 }] },
                 [Event.transportInvoke (some s.nextCallId) m args]) := by
            simp [step, transportMethod, hman, sendTransportCall]
          rw [hstep]
          refine ⟨?_, ?_, ?_, by simp; omega⟩
          · have hne : (s.nextCallId == cid) = false := by simp; omega
            simp [NoEventsFor, countInvoke, countResolve, countReject,
              isInvokeFor, isResolveFor, isRejectFor, hne]
          · rw [notMem_callIds]
            intro tc htc
            simp only [List.mem_append, List.mem_singleton] at htc
            rcases htc with (htc | rfl) | htc
            · exact h1' tc (by simp [List.mem_append, htc])
            · simp
              omega
            · exact h1' tc (by simp [List.mem_append, htc])
          · rw [idsBelow_iff]
            intro tc htc
            simp only [List.mem_append, List.mem_singleton] at htc
            rcases htc with (htc | rfl) | htc
            · have := h2' tc (by simp [List.mem_append, htc])
              simp
              omega
            · simp
            · have := h2' tc (by simp [List.mem_append, htc])
              simp
              omega
  | deliver o =>
      cases hin : s.inflight with
      | nil =>
          have hstep : step s (EnvAction.deliver o) = (s, []) := by
            simp [step, hin]
          rw [hstep]
          exact ⟨by simp [NoEventsFor, countInvoke, countResolve, countReject], h1, h2, h3⟩
      | cons tc rest =>
          have htcmem : tc ∈ s.inflight ++ s.failedCalls := by
            rw [hin]
            simp
          have htc_ne : tc.callId ≠ cid := h1' tc htcmem
          have h1r : ∀ tc2 ∈ rest ++ s.failedCalls, tc2.callId ≠ cid := by
            intro tc2 htc2
            refine h1' tc2 ?_
            rw [hin]
            simp only [List.mem_append, List.mem_cons] at htc2 ⊢
            tauto
          have h2r : ∀ tc2 ∈ rest ++ s.failedCalls, tc2.callId < s.nextCallId := by
            intro tc2 htc2
            refine h2' tc2 ?_
            rw [hin]
            simp only [List.mem_append, List.mem_cons] at htc2 ⊢
            tauto
          cases o with
          | success v =>
              have hstep : step s (EnvAction.deliver (TransportOutcome.success v))
                  = ({ s with inflight := rest }, [Event.resolveCall tc.callId v]) := by
                simp [step, hin]
              rw [hstep]
              have hne : (tc.callId == cid) = false := by
                simp [htc_ne]
              refine ⟨?_, ?_, ?_, h3⟩
              · simp [NoEventsFor, countInvoke, countResolve, countReject,
                  isInvokeFor, isResolveFor, isRejectFor, hne]
              · rw [notMem_callIds]
                exact h1r
              · rw [idsBelow_iff]
                exact h2r
          | failure d =>
              have hstep : step s (EnvAction.deliver (TransportOutcome.failure d))
                  = onTransportFailure { s with inflight := rest } tc d := by
                simp [step, hin]
              rw [hstep]
              rcases onTransportFailure_cases { s with inflight := rest } tc d with hc | hc
              case inr =>
                  rw [hc]
                  have hne : (tc.callId == cid) = false := by
                    simp [htc_ne]
                  refine ⟨?_, ?_, ?_, h3⟩
                  · simp [NoEventsFor, countInvoke, countResolve, countReject,
                      isInvokeFor, isResolveFor, isRejectFor, hne]
                  · rw [notMem_callIds]
                    exact h1r
                  · rw [idsBelow_iff]
                    exact h2r
              case inl =>
                  rw [hc]
                  obtain ⟨ha1, ha2, ha3, ha4⟩
                    := addFailedCall_state { s with inflight := rest } tc
                  refine ⟨addFailedCall_events { s with inflight := rest } tc cid, ?_, ?_, ?_⟩
                  · rw [notMem_callIds, ha1, ha2]
                    intro tc2 htc2
                    simp only [List.mem_append, List.mem_singleton] at htc2
                    rcases htc2 with htc2 | (htc2 | rfl)
                    · exact h1r tc2 (by simp [List.mem_append, htc2])
                    · exact h1r tc2 (by simp [List.mem_append, htc2])
                    · simpa using htc_ne
                  · rw [idsBelow_iff, ha1, ha2, ha3]
                    intro tc2 htc2
                    simp only [List.mem_append, List.mem_singleton] at htc2
                    rcases htc2 with htc2 | (htc2 | rfl)
                    · exact h2r tc2 (by simp [List.mem_append, htc2])
                    · exact h2r tc2 (by simp [List.mem_append, htc2])
                    · simpa using h2' tc htcmem
                  · rw [ha3]
                    exact h3
  | fire =>
      cases hp : s.pendingTimer with
      | none =>
          have hstep : step s EnvAction.fire = (s, []) := by
            simp [step, hp]
          rw [hstep]
          exact ⟨by simp [NoEventsFor, countInvoke, countResolve, countReject], h1, h2, h3⟩
      | some tid =>
          have hstep : step s EnvAction.fire
              = ({ s with
                    pendingTimer := none
                    retryTimer := none
                    failedCalls := []
                    inflight := s.inflight ++ s.failedCalls },
                 s.failedCalls.map
                   fun tc => Event.transportInvoke (some tc.callId) tc.method tc.args) := by
            simp [step, hp, retryFailedCalls_spec]
          rw [hstep]
          refine ⟨⟨countInvoke_map_invoke cid s.failedCalls
              (fun tc htc => h1' tc (by simp [List.mem_append, htc])),
            countResolve_map_invoke cid s.failedCalls,
            countReject_map_invoke cid s.failedCalls⟩, ?_, ?_, h3⟩
          · rw [notMem_callIds]
            intro tc2 htc2
            refine h1' tc2 ?_
            simp only [List.mem_append] at htc2 ⊢
            tauto
          · rw [idsBelow_iff]
            intro tc2 htc2
            refine h2' tc2 ?_
            simp only [List.mem_append] at htc2 ⊢
            tauto

/-- `NoEventsFor` is closed under trace concatenation. -/
theorem noEventsFor_append (cid : Nat) (e1 e2 : List Event)
    (h1 : NoEventsFor cid e1) (h2 : NoEventsFor cid e2) :
    NoEventsFor cid (e1 ++ e2) := by
  obtain ⟨a1, b1, c1⟩ := h1
  obtain ⟨a2, b2, c2⟩ := h2
  refine ⟨?_, ?_, ?_⟩ <;>
    simp_all [countInvoke, countResolve, countReject, List.countP_append]

/-- Frame property of a whole run: an untracked, unreissuable id is never
invoked, resolved or rejected, whatever the environment does. -/
theorem run_frame (s : RetryState) (acts : List EnvAction) (cid : Nat)
    (h1 : cid ∉ callIds s) (h2 : IdsBelow s) (h3 : cid < s.nextCallId) :
    NoEventsFor cid (run s acts).2 := by
  induction acts generalizing s with
  | nil => simp [run, NoEventsFor, countInvoke, countResolve, countReject]
  | cons a rest ih =>
      obtain ⟨he, hm, hb, hn⟩ := step_frame s a cid h1 h2 h3
      have hrest := ih (step s a).1 hm hb hn
      simp only [run]
      exact noEventsFor_append cid _ _ he hrest

/-- C7: a success delivered to a managed call resolves the caller's
promise exactly once with the delivered value unmodified, and the call is
gone from the instance — no later environment behaviour redispatches,
resolves or rejects it again. -/
theorem c7_success_resolves_exactly_once (s : RetryState) (tc : PendingCall)
    (rest : List PendingCall) (v : JsVal) (acts : List EnvAction)
    (hin : s.inflight = tc :: rest)
    (hnotin : tc.callId ∉ callIds { s with inflight := rest })
    (hbelow : IdsBelow s) :
    step s (EnvAction.deliver (TransportOutcome.success v))
      = ({ s with inflight := rest }, [Event.resolveCall tc.callId v])
    ∧ countResolve tc.callId
        ([Event.resolveCall tc.callId v] ++ (run { s with inflight := rest } acts).2) = 1
    ∧ countReject tc.callId
        ([Event.resolveCall tc.callId v] ++ (run { s with inflight := rest } acts).2) = 0
    ∧ countInvoke tc.callId (run { s with inflight := rest } acts).2 = 0 := by
  have hstep : step s (EnvAction.deliver (TransportOutcome.success v))
      = ({ s with inflight := rest }, [Event.resolveCall tc.callId v]) := by
    simp [step, hin]
  have hmem : tc ∈ s.inflight ++ s.failedCalls := by
    rw [hin]
    simp
  have hlt : tc.callId < s.nextCallId := (idsBelow_iff s).mp hbelow tc hmem
  have hbelow2 : IdsBelow { s with inflight := rest } := by
    rw [idsBelow_iff] at hbelow ⊢
    intro tc2 htc2
    refine hbelow tc2 ?_
    rw [hin]
    simp only [List.mem_append, List.mem_cons] at htc2 ⊢
    tauto
  obtain ⟨hi, hr, hj⟩ := run_frame { s with inflight := rest } acts tc.callId hnotin hbelow2 hlt
  refine ⟨hstep, ?_, ?_, hi⟩
  · rw [show ∀ e1 e2 : List Event, countResolve tc.callId (e1 ++ e2)
        = countResolve tc.callId e1 + countResolve tc.callId e2 from
      fun e1 e2 => by simp [countResolve, List.countP_append], hr]
    simp [countResolve, isResolveFor]
  · rw [show ∀ e1 e2 : List Event, countReject tc.callId (e1 ++ e2)
        = countReject tc.callId e1 + countReject tc.callId e2 from
      fun e1 e2 => by simp [countReject, List.countP_append], hj]
    simp [countReject, isRejectFor]

/-- Witness for C7: a call resolved with a string stays resolved exactly
once even when a timer later fires. -/
theorem c7_success_resolves_exactly_once_witness :
    countResolve 0
      ([Event.resolveCall 0 (JsVal.str "ok")]
        ++ (run { retryTimeout := 5, methods := [("get", 2)], failedCalls := [],
                  retryTimer := none, pendingTimer := none, inflight := [],
                  nextTimerId := 0, nextCallId := 1 } [EnvAction.fire]).2) = 1 :=
  (c7_success_resolves_exactly_once
    { retryTimeout := 5, methods := [("get", 2)], failedCalls := [],
      retryTimer := none, pendingTimer := none,
      inflight := [{ method := "get", args := [], callId := 0, retryCount := 0 }],
      nextTimerId := 0, nextCallId := 1 }
    { method := "get", args := [], callId := 0, retryCount := 0 }
    [] (JsVal.str "ok") [EnvAction.fire] rfl (by decide)
    (by intro c hc; simp [callIds] at hc; subst hc; decide)).2.1

/-- `retryLimitOf` depends only on the method policies. -/
theorem retryLimitOf_congr (s1 s2 : RetryState) (m : String)
    (h : s1.methods = s2.methods) : retryLimitOf s1 m = retryLimitOf s2 m := by
  simp [retryLimitOf, h]

/-- A managed verb has a positive retry limit. -/
theorem retryLimitOf_pos_of_isManaged (s : RetryState) (m : String)
    (h : isManaged s m = true) : 0 < retryLimitOf s m := by
  unfold isManaged at h
  unfold retryLimitOf
  rcases hl : s.methods.lookup m with _ | L
  · rw [hl] at h
    simp at h
  · rw [hl] at h
    simpa using of_decide_eq_true h

/-- No step changes the method policies. -/
theorem step_methods (s : RetryState) (a : EnvAction) :
    (step s a).1.methods = s.methods := by
  cases a with
  | call m args =>
      rcases hman : isManaged s m <;>
        simp [step, transportMethod, hman, sendTransportCall]
  | deliver o =>
      rcases hin : s.inflight with _ | ⟨tc, rest⟩
      · simp [step, hin]
      · cases o with
        | success v => simp [step, hin]
        | failure d =>
            rw [show step s (EnvAction.deliver (TransportOutcome.failure d))
                = onTransportFailure { s with inflight := rest } tc d from by simp [step, hin]]
            rcases onTransportFailure_cases { s with inflight := rest } tc d with hc | hc <;>
              rw [hc]
            exact (addFailedCall_state _ _).2.2.2
  | fire =>
      rcases hp : s.pendingTimer with _ | tid
      · simp [step, hp]
      · simp [step, hp, retryFailedCalls_spec]

/-- One step preserves the retry-count bound. -/
theorem step_retryBound (s : RetryState) (a : EnvAction) (h : RetryBound s) :
    RetryBound (step s a).1 := by
  cases a with
  | call m args =>
      cases hman : isManaged s m with
      | false =>
          have hstep : step s (EnvAction.call m args)
              = (s, [Event.transportInvoke none m args]) := by
            simp [step, transportMethod, hman]
          rw [hstep]
          exact h
      | true =>
          have hstep : (step s (EnvAction.call m args)).1
              = { s with
                    nextCallId := s.nextCallId + 1
                    inflight := s.inflight
                      ++ [{ method := m, args := args, callId := s.nextCallId,
                            retryCount := 0 }] } := by
            simp [step, transportMethod, hman, sendTransportCall]
          rw [hstep]
          intro tc2 htc2
          simp only [List.mem_append, List.mem_singleton] at htc2
          rcases htc2 with (htc2 | rfl) | htc2
          · exact h tc2 (by simp [List.mem_append, htc2])
          · simpa using le_of_lt (retryLimitOf_pos_of_isManaged s m hman)
          · exact h tc2 (by simp [List.mem_append, htc2])
  | deliver o =>
      rcases hin : s.inflight with _ | ⟨tc, rest⟩
      · simp only [step, hin]
        exact h
      · have htcmem : tc ∈ s.inflight ++ s.failedCalls := by
          rw [hin]
          simp
        have hsub : ∀ tc2 ∈ rest ++ s.failedCalls, tc2 ∈ s.inflight ++ s.failedCalls := by
          intro tc2 htc2
          rw [hin]
          simp only [List.mem_append, List.mem_cons] at htc2 ⊢
          tauto
        cases o with
        | success v =>
            have hstep : (step s (EnvAction.deliver (TransportOutcome.success v))).1
                = { s with inflight := rest } := by
              simp [step, hin]
            rw [hstep]
            exact fun tc2 htc2 => h tc2 (hsub tc2 htc2)
        | failure d =>
            rw [show step s (EnvAction.deliver (TransportOutcome.failure d))
                = onTransportFailure { s with inflight := rest } tc d from by simp [step, hin]]
            unfold onTransportFailure
            split
            next hcond =>
                have hlt : (tc.retryCount : Int)
                    < retryLimitOf { s with inflight := rest } tc.method :=
                  of_decide_eq_true ((Bool.and_eq_true _ _).mp hcond).2
                obtain ⟨ha1, ha2, ha3, ha4⟩
                  := addFailedCall_state { s with inflight := rest } tc
                intro tc2 htc2
                rw [ha1, ha2] at htc2
                rw [retryLimitOf_congr _ s _ ha4]
                simp only [List.mem_append, List.mem_singleton] at htc2
                rcases htc2 with htc2 | (htc2 | rfl)
                · exact h tc2 (hsub tc2 (by simp [List.mem_append, htc2]))
                · exact h tc2 (hsub tc2 (by simp [List.mem_append, htc2]))
                · have : retryLimitOf { s with inflight := rest } tc.method
                      = retryLimitOf s tc.method := rfl
                  rw [this] at hlt
                  simp only []
                  push_cast
                  omega
            next hcond =>
                exact fun tc2 htc2 => h tc2 (hsub tc2 htc2)
  | fire =>
      rcases hp : s.pendingTimer with _ | tid
      · simp only [step, hp]
        exact fun tc2 htc2 => h tc2 htc2
      · have hstep : (step s EnvAction.fire).1
            = { s with
                  pendingTimer := none
                  retryTimer := none
                  failedCalls := []
                  inflight := s.inflight ++ s.failedCalls } := by
          simp [step, hp, retryFailedCalls_spec]
        rw [hstep]
        intro tc2 htc2
        refine h tc2 ?_
        simp only [List.mem_append] at htc2 ⊢
        tauto

/-- A whole run preserves the retry-count bound. -/
theorem run_retryBound (s : RetryState) (acts : List EnvAction) (h : RetryBound s) :
    RetryBound (run s acts).1 := by
  induction acts generalizing s with
  | nil => simpa [run] using h
  | cons a rest ih =>
      simp only [run]
      exact ih (step s a).1 (step_retryBound s a h)

/-- C9: a managed call starts with `retryCount = 0`; whatever the
environment does, no tracked call's retry count ever exceeds its verb's
retry limit; and a transport-level failure arriving when the budget is
already spent finalizes the call as a rejection instead of re-queuing
it. -/
theorem c9_retry_count_bounded (s : RetryState) (tc : PendingCall) (d : JsVal)
    (acts : List EnvAction) (m : String) (args : List JsVal)
    (hwf : RetryBound s)
    (hd : (d.truthy && (getStatus d).truthy) = false)
    (hat : retryLimitOf s tc.method ≤ (tc.retryCount : Int))
    (hman : isManaged s m = true) :
    RetryBound (run s acts).1
    ∧ onTransportFailure s tc d
        = (s, [Event.rejectCall tc.callId (JsVal.callRecord tc.method tc.retryCount)])
    ∧ (transportMethod s m args).1.inflight
        = s.inflight ++ [{ method := m, args := args, callId := s.nextCallId,
                           retryCount := 0 }] := by
  refine ⟨run_retryBound s acts hwf, ?_, ?_⟩
  · have hdec : decide ((tc.retryCount : Int) < retryLimitOf s tc.method) = false := by
      simp
      omega
    unfold onTransportFailure
    rw [hd, hdec]
    rfl
  · simp [transportMethod, hman, sendTransportCall]

/-- Witness for C9: a call whose single retry is spent is rejected, not
re-queued, on its next transport-level failure. -/
theorem c9_retry_count_bounded_witness :
    onTransportFailure
      { retryTimeout := 0, methods := [("get", 1)], failedCalls := [],
        retryTimer := none, pendingTimer := none,
        inflight := [{ method := "get", args := [], callId := 0, retryCount := 1 }],
        nextTimerId := 0, nextCallId := 1 }
      { method := "get", args := [], callId := 0, retryCount := 1 }
      JsVal.jsNull
      = ({ retryTimeout := 0, methods := [("get", 1)], failedCalls := [],
           retryTimer := none, pendingTimer := none,
           inflight := [{ method := "get", args := [], callId := 0, retryCount := 1 }],
           nextTimerId := 0, nextCallId := 1 },
         [Event.rejectCall 0 (JsVal.callRecord "get" 1)]) :=
  (c9_retry_count_bounded
    { retryTimeout := 0, methods := [("get", 1)], failedCalls := [],
      retryTimer := none, pendingTimer := none,
      inflight := [{ method := "get", args := [], callId := 0, retryCount := 1 }],
      nextTimerId := 0, nextCallId := 1 }
    { method := "get", args := [], callId := 0, retryCount := 1 }
    JsVal.jsNull [] "get" []
    (by intro tc2 htc2; simp at htc2; subst htc2; decide)
    (by decide) (by decide) (by decide)).2.1

/-- First action of the exhaustion scenario: the managed call goes out
once and call 0 is in flight with no retries burnt. -/
theorem init_call_step (timeout : Int) (m : String) (limit : Int) (args : List JsVal)
    (hlim : 0 < limit) :
    step (initState timeout [(m, limit)]) (EnvAction.call m args)
      = (midState timeout m limit args 0 0, [Event.transportInvoke (some 0) m args]) := by
  simp [step, transportMethod, isManaged, List.lookup, hlim, sendTransportCall,
    initState, midState]

/-- A transport-level failure with budget left queues call 0 and arms the
timer. -/
theorem midState_deliver_fail (timeout : Int) (m : String) (limit : Int) (args : List JsVal)
    (d : JsVal) (c tid : Nat)
    (hd : (d.truthy && (getStatus d).truthy) = false)
    (hc : (c : Int) < limit) :
    step (midState timeout m limit args c tid) (EnvAction.deliver (TransportOutcome.failure d))
      = ({ retryTimeout := timeout, methods := [(m, limit)],
           failedCalls := [{ method := m, args := args, callId := 0, retryCount := c + 1 }],
           retryTimer := some tid, pendingTimer := some tid, inflight := [],
           nextTimerId := tid + 1, nextCallId := 1 },
         [Event.timerStart tid timeout]) := by
  simp [step, midState, onTransportFailure, hd, addFailedCall, retryLimitOf,
    List.lookup, hc]

/-- The armed timer fires: the queued call is redispatched and the machine
is back in a between-rounds state with one more retry burnt. -/
theorem midState_fire (timeout : Int) (m : String) (limit : Int) (args : List JsVal)
    (c tid : Nat) :
    step
      { retryTimeout := timeout, methods := [(m, limit)],
        failedCalls := [{ method := m, args := args, callId := 0, retryCount := c + 1 }],
        retryTimer := some tid, pendingTimer := some tid, inflight := [],
        nextTimerId := tid + 1, nextCallId := 1 }
      EnvAction.fire
      = (midState timeout m limit args (c + 1) (tid + 1),
         [Event.transportInvoke (some 0) m args]) := by
  simp [step, retryFailedCalls_spec, midState]

/-- A transport-level failure with the budget spent rejects call 0 (with
the `transportCall` record) and leaves nothing tracked. -/
theorem midState_deliver_exhausted (timeout : Int) (m : String) (limit : Int)
    (args : List JsVal) (d : JsVal) (c tid : Nat)
    (hc : limit ≤ (c : Int)) :
    step (midState timeout m limit args c tid) (EnvAction.deliver (TransportOutcome.failure d))
      = ({ retryTimeout := timeout, methods := [(m, limit)], failedCalls := [],
           retryTimer := none, pendingTimer := none, inflight := [],
           nextTimerId := tid, nextCallId := 1 },
         [Event.rejectCall 0 (JsVal.callRecord m c)]) := by
  have hdec : decide ((c : Int) < limit) = false := by
    simp
    omega
  simp [step, midState, onTransportFailure, retryLimitOf, List.lookup, hdec]

/-- `k` failure-then-fire rounds move the machine from `c` retries burnt
to `c + k`, emitting exactly the round trace. -/
theorem rounds_spec (timeout : Int) (m : String) (limit : Int) (args : List JsVal)
    (d : JsVal) (hd : (d.truthy && (getStatus d).truthy) = false) :
    ∀ (k c tid : Nat), (c : Int) + (k : Int) ≤ limit →
      run (midState timeout m limit args c tid) (failFireRounds d k)
        = (midState timeout m limit args (c + k) (tid + k),
           roundEvents timeout m args tid k) := by
  intro k
  induction k with
  | zero =>
      intro c tid h
      simp [failFireRounds, roundEvents, run]
  | succ j ih =>
      intro c tid h
      have hc : (c : Int) < limit := by
        push_cast at h
        omega
      have h1 := midState_deliver_fail timeout m limit args d c tid hd hc
      have h2 := midState_fire timeout m limit args c tid
      have h3 := ih (c + 1) (tid + 1) (by push_cast at h ⊢; omega)
      rw [show c + 1 + j = c + (j + 1) from by omega,
        show tid + 1 + j = tid + (j + 1) from by omega] at h3
      simp only [failFireRounds, run, h1, h2, h3, roundEvents]
      simp

/-- Per-call counts of the round trace: `k` invocations of call 0, no
settlements. -/
theorem roundEvents_counts (timeout : Int) (m : String) (args : List JsVal) :
    ∀ k tid, countInvoke 0 (roundEvents timeout m args tid k) = k
      ∧ countResolve 0 (roundEvents timeout m args tid k) = 0
      ∧ countReject 0 (roundEvents timeout m args tid k) = 0 := by
  intro k
  induction k with
  | zero =>
      intro tid
      simp [roundEvents, countInvoke, countResolve, countReject]
  | succ j ih =>
      intro tid
      obtain ⟨a, b, c⟩ := ih (tid + 1)
      simp only [countInvoke, countResolve, countReject] at a b c ⊢
      refine ⟨?_, ?_, ?_⟩ <;>
        simp [roundEvents, List.countP_cons, isInvokeFor, isResolveFor, isRejectFor,
          a, b, c]

/-- The full trace and final state of the retry-exhaustion scenario. -/
theorem scenarioRetryExhaust_spec (N : Nat) (timeout : Int) (args : List JsVal) (d : JsVal)
    (hN : 0 < N)
    (hd : (d.truthy && (getStatus d).truthy) = false) :
    scenarioRetryExhaust timeout "get" (N : Int) args d N
      = ({ retryTimeout := timeout, methods := [("get", (N : Int))], failedCalls := [],
           retryTimer := none, pendingTimer := none, inflight := [],
           nextTimerId := N, nextCallId := 1 },
         Event.transportInvoke (some 0) "get" args
           :: (roundEvents timeout "get" args 0 N
             ++ [Event.rejectCall 0 (JsVal.callRecord "get" N)])) := by
  have hlim : (0 : Int) < (N : Int) := by exact_mod_cast hN
  have hcall := init_call_step timeout "get" (N : Int) args hlim
  have hrounds := rounds_spec timeout "get" (N : Int) args d hd N 0 0 (by push_cast; omega)
  simp only [Nat.zero_add] at hrounds
  have hfinal := midState_deliver_exhausted timeout "get" (N : Int) args d N N le_rfl
  unfold scenarioRetryExhaust
  simp only [run, hcall]
  rw [run_append, hrounds]
  simp only [run, hfinal]
  simp

/-- `countInvoke` over a concatenation. -/
theorem countInvoke_append (cid : Nat) (e1 e2 : List Event) :
    countInvoke cid (e1 ++ e2) = countInvoke cid e1 + countInvoke cid e2 := by
  simp [countInvoke, List.countP_append]

/-- `countReject` over a concatenation. -/
theorem countReject_append (cid : Nat) (e1 e2 : List Event) :
    countReject cid (e1 ++ e2) = countReject cid e1 + countReject cid e2 := by
  simp [countReject, List.countP_append]

/-- `countResolve` over a concatenation. -/
theorem countResolve_append (cid : Nat) (e1 e2 : List Event) :
    countResolve cid (e1 ++ e2) = countResolve cid e1 + countResolve cid e2 := by
  simp [countResolve, List.countP_append]

/-- `countInvoke` over a cons. -/
theorem countInvoke_cons (cid : Nat) (e : Event) (l : List Event) :
    countInvoke cid (e :: l) = countInvoke cid l + if isInvokeFor cid e then 1 else 0 := by
  simp [countInvoke, List.countP_cons]

/-- `countReject` over a cons. -/
theorem countReject_cons (cid : Nat) (e : Event) (l : List Event) :
    countReject cid (e :: l) = countReject cid l + if isRejectFor cid e then 1 else 0 := by
  simp [countReject, List.countP_cons]

/-- `countResolve` over a cons. -/
theorem countResolve_cons (cid : Nat) (e : Event) (l : List Event) :
    countResolve cid (e :: l) = countResolve cid l + if isResolveFor cid e then 1 else 0 := by
  simp [countResolve, List.countP_cons]

/-- C1: for a managed verb with retry limit N > 0, N+1 consecutive
transport-level failures invoke the underlying transport exactly N+1
times for the call (the original dispatch plus N redispatches) and then
reject the caller's promise; over the call's whole lifetime — whatever
the environment does afterwards — the promise is settled exactly once
(one rejection, no resolution, no further redispatch). -/
theorem c1_retry_exhaustion (N : Nat) (timeout : Int) (args : List JsVal) (d : JsVal)
    (acts : List EnvAction)
    (hN : 0 < N)
    (hd : (d.truthy && (getStatus d).truthy) = false) :
    countInvoke 0 (scenarioRetryExhaust timeout "get" (N : Int) args d N).2 = N + 1
    ∧ countReject 0 (scenarioRetryExhaust timeout "get" (N : Int) args d N).2 = 1
    ∧ countResolve 0 (scenarioRetryExhaust timeout "get" (N : Int) args d N).2 = 0
    ∧ NoEventsFor 0
        (run (scenarioRetryExhaust timeout "get" (N : Int) args d N).1 acts).2 := by
  have hmain := scenarioRetryExhaust_spec N timeout args d hN hd
  obtain ⟨ra, rb, rc⟩ := roundEvents_counts timeout "get" args N 0
  rw [hmain]
  refine ⟨?_, ?_, ?_, ?_⟩
  · rw [countInvoke_cons, countInvoke_append, ra]
    simp [countInvoke, isInvokeFor]
  · rw [countReject_cons, countReject_append, rc]
    simp [countReject, isRejectFor]
  · rw [countResolve_cons, countResolve_append, rb]
    simp [countResolve, isResolveFor]
  · exact run_frame _ acts 0 (by simp [callIds])
      (by intro c hc; simp [callIds] at hc) Nat.one_pos

/-- Witness for C1 at retry limit 2: three invocations, one rejection. -/
theorem c1_retry_exhaustion_witness :
    countInvoke 0 (scenarioRetryExhaust 5 "get" ((2 : Nat) : Int) [] JsVal.undef 2).2 = 2 + 1
    ∧ countReject 0 (scenarioRetryExhaust 5 "get" ((2 : Nat) : Int) [] JsVal.undef 2).2 = 1
    ∧ countResolve 0 (scenarioRetryExhaust 5 "get" ((2 : Nat) : Int) [] JsVal.undef 2).2 = 0
    ∧ NoEventsFor 0
        (run (scenarioRetryExhaust 5 "get" ((2 : Nat) : Int) [] JsVal.undef 2).1 []).2 :=
  c1_retry_exhaustion 2 5 [] JsVal.undef [] (by decide) (by decide)
